import Mathlib

/-!
Verification of the aliexpress-product-archiver core pipeline.

Shallow embedding of the Rust sources (`src/fetcher.rs`, `src/parser.rs`,
`src/models.rs`, `src/archiver.rs`) into Lean 4, together with proofs of the
specification claims about the redirect policy, the HTML title extraction,
the timestamp format and the JSON persistence round trip.

External library behaviour (reqwest's redirect loop, scraper's DOM and
selector matching, serde_json's pretty printer, chrono's RFC 3339
formatting) is modelled explicitly from the documented semantics those
crates provide; the repository's own code is translated line by line.
-/

/-! ## Fetcher: the custom redirect policy (src/fetcher.rs)

The policy closure passed to `redirect::Policy::custom` sees, at each hop,
the list of previously visited URLs (`attempt.previous()`) and the URL the
redirect points at (`attempt.url()`), and answers with one of reqwest's
three actions: `error`, `stop` or `follow`.  reqwest invokes the policy with
the original request URL already in the visited list, so at the k-th hop the
visited list has exactly k entries. -/

/-- Model of `reqwest::Url` restricted to what the policy inspects:
`host_str()` yields an optional host string. -/
structure Url where
  host : Option String
deriving DecidableEq

/-- Action returned by one evaluation of the redirect policy closure. -/
inductive RedirectAction where
  | error (msg : String)
  | stop
  | follow
deriving DecidableEq

/-- The policy closure inside `fetch_html`: error past 100 previously
visited URLs, stop when the next hop's host is `example.domain`, follow
otherwise.  The two tests happen in exactly this order in the source. -/
def redirectPolicy (previous : List Url) (next : Url) : RedirectAction :=
  if previous.length > 100 then RedirectAction.error "Too many redirects (>100)"
  else if next.host = some "example.domain" then RedirectAction.stop
  else RedirectAction.follow

/-- Outcome of following a whole redirect chain under the policy:
a policy error, an early stop (the response at that hop is returned as a
success), or normal completion at the end of the chain.  Each constructor
records the URLs visited when it fired. -/
inductive FetchResult where
  | redirectError (visited : List Url) (msg : String)
  | stopped (visited : List Url) (next : Url)
  | completed (visited : List Url)
deriving DecidableEq

/-- Whether a fetch outcome is a redirect-policy error. -/
def FetchResult.isError : FetchResult → Bool
  | .redirectError _ _ => true
  | .stopped _ _ => false
  | .completed _ => false

/-- Simulation of reqwest's redirect loop: consult the policy for every next
hop of the chain, extending the visited list on `follow`. -/
def followChain (visited : List Url) : List Url → FetchResult
  | [] => FetchResult.completed visited
  | next :: rest =>
    match redirectPolicy visited next with
    | RedirectAction.error msg => FetchResult.redirectError visited msg
    | RedirectAction.stop => FetchResult.stopped visited next
    | RedirectAction.follow => followChain (visited ++ [next]) rest

/-- Follow a redirect chain starting from the original request URL, which
reqwest places in the visited list before the first policy call. -/
def runRedirects (original : Url) (chain : List Url) : FetchResult :=
  followChain [original] chain

/-- A URL on the host the policy blocks. -/
def blockedUrl : Url := ⟨some "example.domain"⟩

/-- A URL on an ordinary host. -/
def plainUrl : Url := ⟨some "example.com"⟩

/-! ## String utilities: Rust's `str::trim`

`str::trim` strips leading and trailing characters with the Unicode
White_Space property. -/

/-- Code points with the Unicode White_Space property, the set
`char::is_whitespace` tests. -/
def rustWsCodes : List Nat :=
  [9, 10, 11, 12, 13, 32, 133, 160, 5760,
   8192, 8193, 8194, 8195, 8196, 8197, 8198, 8199, 8200, 8201, 8202,
   8232, 8233, 8239, 8287, 12288]

/-- Whether a character counts as whitespace for Rust's `str::trim`. -/
def isRustWs (c : Char) : Bool := rustWsCodes.contains c.toNat

/-- Strip leading and trailing whitespace from a character list. -/
def trimChars (l : List Char) : List Char :=
  ((l.dropWhile isRustWs).reverse.dropWhile isRustWs).reverse

/-- Model of Rust's `str::trim`. -/
def rustTrim (s : String) : String := ⟨trimChars s.data⟩

/-! ## Extractor: DOM, selector and `parse_product` (src/parser.rs)

`Html::parse_document` comes from the external scraper/html5ever crates, so
the document is modelled at the DOM level: a forest of element and text
nodes.  `select` iterates matching elements in document order (preorder),
and `inner_html` re-serializes an element's children. -/

mutual
/-- A DOM node: a text node or an element with tag name, class list and
children. -/
inductive Node where
  | text (s : String)
  | elem (tag : String) (classes : List String) (children : NodeList)
/-- A list of sibling DOM nodes. -/
inductive NodeList where
  | nil
  | cons (n : Node) (rest : NodeList)
end

/-- HTML-escape one character of a text node, as the html5ever serializer
does when `inner_html` re-serializes text. -/
def escapeHtmlChar (c : Char) : List Char :=
  if c = '&' then "&amp;".data
  else if c = '<' then "&lt;".data
  else if c = '>' then "&gt;".data
  else [c]

/-- HTML-escape the contents of a text node. -/
def escapeHtmlText (s : String) : String := ⟨(s.data.map escapeHtmlChar).flatten⟩

/-- Serialized `class` attribute of an element (empty when it has no
classes). -/
def classAttr : List String → String
  | [] => ""
  | c :: rest => " class=\"" ++ String.intercalate " " (c :: rest) ++ "\""

mutual
/-- Serialize a node back to HTML text, as `inner_html` does. -/
def Node.serialize : Node → String
  | .text s => escapeHtmlText s
  | .elem tag classes children =>
    "<" ++ tag ++ classAttr classes ++ ">" ++ NodeList.serialize children ++ "</" ++ tag ++ ">"
/-- Serialize a sibling list back to HTML text. -/
def NodeList.serialize : NodeList → String
  | .nil => ""
  | .cons n rest => Node.serialize n ++ NodeList.serialize rest
end

/-- Model of scraper's `ElementRef::inner_html`: the serialization of the
element's children. -/
def Node.innerHtml : Node → String
  | .text s => escapeHtmlText s
  | .elem _ _ children => NodeList.serialize children

/-- A parsed CSS selector of the shape `tag.class1.class2...`, the fragment
of the selector language `parse_product` uses. -/
structure Selector where
  tag : String
  classes : List String
deriving DecidableEq

/-- Characters allowed in the tag and class identifiers of a selector. -/
def isSelIdentChar (c : Char) : Bool := c.isAlphanum || c = '-' || c = '_'

/-- Split a character list at every dot. -/
def splitOnDot : List Char → List (List Char)
  | [] => [[]]
  | c :: rest =>
    let r := splitOnDot rest
    if c = '.' then [] :: r
    else
      match r with
      | [] => [[c]]
      | h :: t => (c :: h) :: t

/-- Model of `Selector::parse` on the `tag.class...` fragment: succeeds
exactly when every dot-separated component is a nonempty identifier. -/
def Selector.parse (s : String) : Option Selector :=
  match splitOnDot s.data with
  | [] => none
  | t :: cs =>
    if (!t.isEmpty && (t :: cs).all fun part => !part.isEmpty && part.all isSelIdentChar) then
      some ⟨⟨t⟩, cs.map (fun l => ⟨l⟩)⟩
    else none

/-- Whether a node is an element matching the selector: same tag name and
carrying every class the selector lists. -/
def Node.matchesSel (sel : Selector) : Node → Bool
  | .text _ => false
  | .elem tag classes _ => tag == sel.tag && sel.classes.all fun c => classes.contains c

mutual
/-- All elements of a subtree matching the selector, in document order
(preorder: an element precedes its descendants). -/
def selectNode (sel : Selector) : Node → List Node
  | .text _ => []
  | .elem tag classes children =>
    (if Node.matchesSel sel (.elem tag classes children)
      then [Node.elem tag classes children] else []) ++ selectList sel children
/-- All matching elements under a sibling list, in document order. -/
def selectList (sel : Selector) : NodeList → List Node
  | .nil => []
  | .cons n rest => selectNode sel n ++ selectList sel rest
end

/-! ## Timestamps: `chrono::Utc::now().to_rfc3339()`

The clock is external state, so the current instant is a parameter: a civil
UTC date-time.  `to_rfc3339` renders it as
`YYYY-MM-DDTHH:MM:SS[.fff[fff[fff]]]+00:00`, printing the fractional part
with 3, 6 or 9 digits (trailing-zero groups dropped), or not at all when
the nanosecond field is zero. -/

/-- A civil UTC date-time with nanosecond precision, the observable content
of `chrono::DateTime<Utc>`. -/
structure DateTime where
  year : Nat
  month : Nat
  day : Nat
  hour : Nat
  minute : Nat
  second : Nat
  nanos : Nat
deriving DecidableEq

/-- Field ranges of a well-formed date-time (second 60 admits leap
seconds, as chrono does). -/
def DateTime.isValid (dt : DateTime) : Bool :=
  dt.year ≤ 9999 && 1 ≤ dt.month && dt.month ≤ 12 && 1 ≤ dt.day && dt.day ≤ 31 &&
    dt.hour ≤ 23 && dt.minute ≤ 59 && dt.second ≤ 60 && dt.nanos < 1000000000

/-- Chronological order key of a civil UTC date-time: its fields read as a
mixed-radix numeral, so valid date-times compare chronologically. -/
def DateTime.key (dt : DateTime) : Nat :=
  (((((dt.year * 13 + dt.month) * 32 + dt.day) * 24 + dt.hour) * 60 + dt.minute) * 61 +
      dt.second) * 1000000000 + dt.nanos

/-- The decimal digit character for a value below ten. -/
def decChar (d : Nat) : Char := Char.ofNat (48 + d)

/-- Fixed-width zero-padded decimal rendering. -/
def padNum (width n : Nat) : List Char :=
  (List.range width).reverse.map fun i => decChar (n / 10 ^ i % 10)

/-- Decimal rendering without padding, as serde_json prints a `u64`. -/
def natDecChars (n : Nat) : List Char :=
  if n = 0 then ['0'] else (Nat.digits 10 n).reverse.map decChar

/-- Decimal rendering as a string. -/
def natDec (n : Nat) : String := ⟨natDecChars n⟩

/-- Fractional-second part of the RFC 3339 rendering: empty for zero
nanoseconds, otherwise a dot and 3, 6 or 9 digits. -/
def fracChars (nanos : Nat) : List Char :=
  if nanos = 0 then []
  else if nanos % 1000000 = 0 then '.' :: padNum 3 (nanos / 1000000)
  else if nanos % 1000 = 0 then '.' :: padNum 6 (nanos / 1000)
  else '.' :: padNum 9 nanos

/-- Model of `DateTime::<Utc>::to_rfc3339`. -/
def toRfc3339 (dt : DateTime) : String :=
  ⟨padNum 4 dt.year ++ '-' :: padNum 2 dt.month ++ '-' :: padNum 2 dt.day ++
    'T' :: padNum 2 dt.hour ++ ':' :: padNum 2 dt.minute ++ ':' :: padNum 2 dt.second ++
    fracChars dt.nanos ++ "+00:00".data⟩

/-- Numeric value of a decimal digit character. -/
def digitVal? (c : Char) : Option Nat :=
  if 48 ≤ c.toNat ∧ c.toNat ≤ 57 then some (c.toNat - 48) else none

/-- Parse exactly `k` decimal digits, accumulating their value. -/
def parseFixedAux : Nat → Nat → List Char → Option (Nat × List Char)
  | 0, acc, l => some (acc, l)
  | _ + 1, _, [] => none
  | k + 1, acc, c :: rest =>
    match digitVal? c with
    | some d => parseFixedAux k (acc * 10 + d) rest
    | none => none

/-- Parse a fixed-width decimal number. -/
def parseFixedNat (k : Nat) (l : List Char) : Option (Nat × List Char) :=
  parseFixedAux k 0 l

/-- Consume one expected character. -/
def expectChar (c : Char) : List Char → Option (List Char)
  | [] => none
  | x :: rest => if x = c then some rest else none

/-- Consume an expected literal character sequence. -/
def stripLit : List Char → List Char → Option (List Char)
  | [], l => some l
  | _ :: _, [] => none
  | p :: ps, c :: cs => if c = p then stripLit ps cs else none

/-- Value of a decimal digit string. -/
def digitsVal (ds : List Char) : Nat :=
  ds.foldl (fun a c => a * 10 + (c.toNat - 48)) 0

/-- Parse an optional fractional-second part: a dot followed by one to nine
digits, scaled to nanoseconds; no dot means zero nanoseconds. -/
def parseFrac : List Char → Option (Nat × List Char)
  | '.' :: rest =>
    let ds := rest.takeWhile Char.isDigit
    if ds.isEmpty || decide (9 < ds.length) then none
    else some (digitsVal ds * 10 ^ (9 - ds.length), rest.dropWhile Char.isDigit)
  | l => some (0, l)

/-- Parse an RFC 3339 date-time in the UTC form `to_rfc3339` emits,
validating the field ranges. -/
def parseRfc3339 (s : String) : Option DateTime := do
  let (y, l) ← parseFixedNat 4 s.data
  let l ← expectChar '-' l
  let (mo, l) ← parseFixedNat 2 l
  let l ← expectChar '-' l
  let (d, l) ← parseFixedNat 2 l
  let l ← expectChar 'T' l
  let (h, l) ← parseFixedNat 2 l
  let l ← expectChar ':' l
  let (mi, l) ← parseFixedNat 2 l
  let l ← expectChar ':' l
  let (sec, l) ← parseFixedNat 2 l
  let (ns, l) ← parseFrac l
  let l ← stripLit "+00:00".data l
  let dt : DateTime := ⟨y, mo, d, h, mi, sec, ns⟩
  if l.isEmpty && dt.isValid then some dt else none

/-! ## The record and `parse_product` (src/models.rs, src/parser.rs) -/

/-- The `Product` record: `product_id` is a `u64` (modelled as `Nat`; the
program never computes with it, so no overflow arises). -/
structure Product where
  product_id : Nat
  title : String
  timestamp : String
deriving DecidableEq

/-- Translation of `parse_product`: parse the fixed selector (the `unwrap`
panic on a malformed selector is the `none` branch), take the first
matching element in document order, use its trimmed inner HTML as the
title or fall back to the sentinel, and stamp the current instant rendered
per RFC 3339. -/
def parse_product (product_id : Nat) (doc : NodeList) (now : DateTime) : Option Product :=
  match Selector.parse "h1.product-title-text" with
  | none => none
  | some sel =>
    some { product_id := product_id,
           title :=
             match (selectList sel doc).head? with
             | some e => rustTrim (Node.innerHtml e)
             | none => "Unknown Title",
           timestamp := toRfc3339 now }

/-! ## Spec-side title lookup

Modelled from the spec's words ("the first `h1` element carrying the class
`product-title-text`, document order, first match only") independently of
`selectList`, to compare the two. -/

/-- Whether a node is an `h1` element carrying class `product-title-text`. -/
def isTitleNode : Node → Bool
  | .text _ => false
  | .elem tag classes _ => tag == "h1" && classes.contains "product-title-text"

mutual
/-- First title element of a subtree in document order. -/
def firstTitleNode : Node → Option Node
  | .text _ => none
  | .elem tag classes children =>
    if isTitleNode (.elem tag classes children) then some (.elem tag classes children)
    else firstTitleList children
/-- First title element under a sibling list in document order. -/
def firstTitleList : NodeList → Option Node
  | .nil => none
  | .cons n rest =>
    match firstTitleNode n with
    | some e => some e
    | none => firstTitleList rest
end

mutual
/-- Whether a subtree contains a title element. -/
def anyTitleNode : Node → Bool
  | .text _ => false
  | .elem tag classes children =>
    isTitleNode (.elem tag classes children) || anyTitleList children
/-- Whether a sibling list contains a title element. -/
def anyTitleList : NodeList → Bool
  | .nil => false
  | .cons n rest => anyTitleNode n || anyTitleList rest
end

/-! ## Archiver: `serde_json::to_string_pretty` and `save_to_file`
(src/archiver.rs)

serde_json's pretty printer indents with two spaces, writes object entries
as `"key": value` separated by `,\n`, and serializes struct fields in
declaration order: `product_id`, `title`, `timestamp`.  Strings are quoted
with `"`, `\` and control characters escaped (`\b \t \n \f \r` or
`\u00XX` with lowercase hex). -/

/-- Lowercase hexadecimal digit character. -/
def hexDigitChar (d : Nat) : Char :=
  if d < 10 then Char.ofNat (48 + d) else Char.ofNat (87 + d)

/-- JSON escape of one character, following serde_json's serializer. -/
def escChar (c : Char) : List Char :=
  if c = '"' then ['\\', '"']
  else if c = '\\' then ['\\', '\\']
  else if c.toNat = 8 then ['\\', 'b']
  else if c.toNat = 9 then ['\\', 't']
  else if c.toNat = 10 then ['\\', 'n']
  else if c.toNat = 12 then ['\\', 'f']
  else if c.toNat = 13 then ['\\', 'r']
  else if c.toNat < 32 then
    ['\\', 'u', '0', '0', hexDigitChar (c.toNat / 16), hexDigitChar (c.toNat % 16)]
  else [c]

/-- JSON escape of a character list. -/
def escapeJsonChars (l : List Char) : List Char := (l.map escChar).flatten

/-- JSON escape of a string (content between the quotes). -/
def escapeJson (s : String) : String := ⟨escapeJsonChars s.data⟩

/-- JSON values occurring in a serialized `Product`: unsigned integers and
strings. -/
inductive JVal where
  | num (n : Nat)
  | str (s : String)
deriving DecidableEq

/-- Pretty rendering of a JSON scalar value. -/
def JVal.pretty : JVal → String
  | .num n => natDec n
  | .str s => "\"" ++ escapeJson s ++ "\""

/-- serde_json pretty rendering of the entries of an object at depth one:
each entry indented by two spaces as `"key": value`, separated by `,\n`. -/
def objEntries : List (String × JVal) → String
  | [] => ""
  | [f] => "  \"" ++ escapeJson f.1 ++ "\": " ++ f.2.pretty
  | f :: rest => "  \"" ++ escapeJson f.1 ++ "\": " ++ f.2.pretty ++ ",\n" ++ objEntries rest

/-- serde_json pretty rendering of an object with the given fields, in
order, with two-space indentation. -/
def objPretty (fields : List (String × JVal)) : String :=
  match fields with
  | [] => "\x7b\x7d"
  | _ => "\x7b\n" ++ objEntries fields ++ "\n\x7d"

/-- The serde fields of a `Product`, in declaration order. -/
def Product.jsonFields (p : Product) : List (String × JVal) :=
  [("product_id", JVal.num p.product_id),
   ("title", JVal.str p.title),
   ("timestamp", JVal.str p.timestamp)]

/-- Model of `serde_json::to_string_pretty` on a `Product`. -/
def to_string_pretty (p : Product) : String := objPretty p.jsonFields

/-- The file system seen by the Archiver: a map from file names to
contents. -/
def FileSys := String → Option String

/-- Translation of `save_to_file`: serialize the record and create or
overwrite the destination file with the serialized bytes. -/
def save_to_file (product : Product) (filename : String) (fs : FileSys) : FileSys :=
  fun f => if f = filename then some (to_string_pretty product) else fs f

/-! ## Reading the archive back: a JSON deserializer for the record shape

Model of `serde_json::from_str::<Product>` restricted to the field order
the serializer emits, whitespace-tolerant, with full string unescaping. -/

/-- JSON insignificant whitespace. -/
def isJsonWs (c : Char) : Bool :=
  c.toNat = 32 || c.toNat = 9 || c.toNat = 10 || c.toNat = 13

/-- Skip insignificant whitespace. -/
def skipWs (l : List Char) : List Char := l.dropWhile isJsonWs

/-- Numeric value of a hexadecimal digit character. -/
def hexVal? (c : Char) : Option Nat :=
  if 48 ≤ c.toNat ∧ c.toNat ≤ 57 then some (c.toNat - 48)
  else if 97 ≤ c.toNat ∧ c.toNat ≤ 102 then some (c.toNat - 87)
  else if 65 ≤ c.toNat ∧ c.toNat ≤ 70 then some (c.toNat - 55)
  else none

/-- Prepend a character to the first component of a parse result. -/
def consFst (c : Char) : List Char × List Char → List Char × List Char :=
  fun p => (c :: p.1, p.2)

/-- Decode four hexadecimal digit characters into a code point. -/
def hex4 (h1 h2 h3 h4 : Char) : Option Nat :=
  match hexVal? h1, hexVal? h2, hexVal? h3, hexVal? h4 with
  | some a, some b, some c, some d => some (((a * 16 + b) * 16 + c) * 16 + d)
  | _, _, _, _ => none

/-- Parse the body of a JSON string up to its closing quote, decoding
escapes; returns the decoded characters and the input after the quote. -/
def parseStrBody : List Char → Option (List Char × List Char)
  | [] => none
  | '"' :: rest => some ([], rest)
  | '\\' :: 'u' :: h1 :: h2 :: h3 :: h4 :: rest =>
    (match hex4 h1 h2 h3 h4 with
     | some n => (parseStrBody rest).map (consFst (Char.ofNat n))
     | none => none)
  | '\\' :: e :: rest =>
    if e = '"' then (parseStrBody rest).map (consFst '"')
    else if e = '\\' then (parseStrBody rest).map (consFst '\\')
    else if e = '/' then (parseStrBody rest).map (consFst '/')
    else if e = 'b' then (parseStrBody rest).map (consFst (Char.ofNat 8))
    else if e = 'f' then (parseStrBody rest).map (consFst (Char.ofNat 12))
    else if e = 'n' then (parseStrBody rest).map (consFst (Char.ofNat 10))
    else if e = 'r' then (parseStrBody rest).map (consFst (Char.ofNat 13))
    else if e = 't' then (parseStrBody rest).map (consFst (Char.ofNat 9))
    else none
  | c :: rest => (parseStrBody rest).map (consFst c)

/-- Parse a quoted JSON string. -/
def parseJsonString : List Char → Option (String × List Char)
  | '"' :: rest => (parseStrBody rest).map fun p => (⟨p.1⟩, p.2)
  | _ => none

/-- Parse a nonempty run of decimal digits as a natural number. -/
def parseNatChars (l : List Char) : Option (Nat × List Char) :=
  let ds := l.takeWhile Char.isDigit
  if ds.isEmpty then none else some (digitsVal ds, l.dropWhile Char.isDigit)

/-- Deserialize a `Product` from its JSON object form. -/
def parseProductJson (s : String) : Option Product := do
  let l := skipWs s.data
  let l ← stripLit "\x7b".data l
  let l := skipWs l
  let l ← stripLit "\"product_id\"".data l
  let l := skipWs l
  let l ← stripLit ":".data l
  let l := skipWs l
  let (pid, l) ← parseNatChars l
  let l := skipWs l
  let l ← stripLit ",".data l
  let l := skipWs l
  let l ← stripLit "\"title\"".data l
  let l := skipWs l
  let l ← stripLit ":".data l
  let l := skipWs l
  let (title, l) ← parseJsonString l
  let l := skipWs l
  let l ← stripLit ",".data l
  let l := skipWs l
  let l ← stripLit "\"timestamp\"".data l
  let l := skipWs l
  let l ← stripLit ":".data l
  let l := skipWs l
  let (ts, l) ← parseJsonString l
  let l := skipWs l
  let l ← stripLit "\x7d".data l
  let l := skipWs l
  if l.isEmpty then some ⟨pid, title, ts⟩ else none

/-- The exact character sequence `to_string_pretty` produces, with the
decimal digits of the identifier and the two escaped string bodies
abstracted. -/
def productJsonChars (ds e1 e2 : List Char) : List Char :=
  '\x7b' :: '\n' :: ' ' :: ' ' :: '"' :: 'p' :: 'r' :: 'o' :: 'd' :: 'u'
      :: 'c' :: 't' :: '_' :: 'i' :: 'd' :: '"' :: ':' :: ' ' ::
    (ds ++ ',' :: '\n' :: ' ' :: ' ' :: '"' :: 't' :: 'i' :: 't' :: 'l' :: 'e' :: '"'
      :: ':' :: ' ' :: '"' ::
    (e1 ++ '"' :: ',' :: '\n' :: ' ' :: ' ' :: '"' :: 't' :: 'i' :: 'm'
      :: 'e' :: 's' :: 't' :: 'a' :: 'm' :: 'p' :: '"' :: ':' :: ' ' :: '"' ::
    (e2 ++ '"' :: '\n' :: '\x7d' :: [])))

/-! ## Concrete fixtures used by the witnesses -/

/-- The title element of the spec's concrete fixture. -/
def sampleTitleNode : Node :=
  Node.elem "h1" ["product-title-text"] (NodeList.cons (Node.text "  Wireless Mouse  ") NodeList.nil)

/-- A second title element that must be ignored (later in document
order). -/
def otherTitleNode : Node :=
  Node.elem "h1" ["product-title-text"] (NodeList.cons (Node.text "Ignored") NodeList.nil)

/-- The spec's concrete fixture
`<html><body><h1 class="product-title-text">  Wireless Mouse  </h1>...</body></html>`,
extended with a second matching element to check that later matches are
ignored. -/
def sampleDoc : NodeList :=
  NodeList.cons
    (Node.elem "html" []
      (NodeList.cons
        (Node.elem "body" []
          (NodeList.cons sampleTitleNode (NodeList.cons otherTitleNode NodeList.nil)))
        NodeList.nil))
    NodeList.nil

/-- The spec's no-title fixture `<html><body><p>no title here</p></body></html>`. -/
def noTitleDoc : NodeList :=
  NodeList.cons
    (Node.elem "html" []
      (NodeList.cons
        (Node.elem "body" []
          (NodeList.cons (Node.elem "p" [] (NodeList.cons (Node.text "no title here") NodeList.nil))
            NodeList.nil))
        NodeList.nil))
    NodeList.nil

/-- A document whose only title element has whitespace-only content. -/
def blankTitleDoc : NodeList :=
  NodeList.cons
    (Node.elem "html" []
      (NodeList.cons
        (Node.elem "h1" ["product-title-text"] (NodeList.cons (Node.text "   ") NodeList.nil))
        NodeList.nil))
    NodeList.nil

/-- A concrete instant used by the witnesses. -/
def sampleInstant : DateTime := ⟨2026, 10, 12, 8, 30, 5, 123000000⟩

/-- An instant before `sampleInstant`. -/
def startInstant : DateTime := ⟨2026, 10, 12, 8, 30, 0, 0⟩

/-- An instant after `sampleInstant`. -/
def endInstant : DateTime := ⟨2026, 10, 12, 8, 31, 0, 0⟩

/-- The spec's concrete product identifier. -/
def sampleId : Nat := 1005007181903595

/-- A chain that never targets the blocked host and stays within the visit
budget is followed to completion. -/
theorem followChain_completed (chain : List Url) : ∀ visited : List Url,
    visited.length + chain.length ≤ 101 →
    (∀ u ∈ chain, u.host ≠ some "example.domain") →
    followChain visited chain = FetchResult.completed (visited ++ chain) := by
  induction chain with
  | nil => intro visited _ _; simp [followChain]
  | cons u rest ih =>
    intro visited hlen hblk
    have h1 : ¬ visited.length > 100 := by simp at hlen; omega
    have h2 : u.host ≠ some "example.domain" := hblk u (List.mem_cons_self u rest)
    have hrec := ih (visited ++ [u])
      (by simp at hlen ⊢; omega)
      (fun v hv => hblk v (List.mem_cons_of_mem u hv))
    simp only [followChain, redirectPolicy, if_neg h1, if_neg h2]
    rw [hrec]
    simp

/-- A chain long enough to exhaust the visit budget, never targeting the
blocked host, runs into the redirect-limit error. -/
theorem followChain_error (chain : List Url) : ∀ visited : List Url,
    chain ≠ [] → 102 ≤ visited.length + chain.length →
    (∀ u ∈ chain, u.host ≠ some "example.domain") →
    ∃ v, followChain visited chain = FetchResult.redirectError v "Too many redirects (>100)" := by
  induction chain with
  | nil => intro _ hne _ _; exact absurd rfl hne
  | cons u rest ih =>
    intro visited _ hlen hblk
    by_cases h1 : visited.length > 100
    · refine ⟨visited, ?_⟩
      simp only [followChain, redirectPolicy, if_pos h1]
    · have h2 : u.host ≠ some "example.domain" := hblk u (List.mem_cons_self u rest)
      have hne : rest ≠ [] := by
        intro h
        subst h
        simp at hlen
        omega
      have hrec := ih (visited ++ [u]) hne
        (by simp at hlen ⊢; omega)
        (fun v hv => hblk v (List.mem_cons_of_mem u hv))
      simpa only [followChain, redirectPolicy, if_neg h1, if_neg h2] using hrec

/-- A chain whose first blocked-host hop arrives while the visit budget
still has room stops there, with exactly the earlier hops visited. -/
theorem followChain_stop (pre : List Url) : ∀ visited : List Url,
    ∀ u post, visited.length + pre.length ≤ 100 →
    (∀ v ∈ pre, v.host ≠ some "example.domain") →
    u.host = some "example.domain" →
    followChain visited (pre ++ u :: post) = FetchResult.stopped (visited ++ pre) u := by
  induction pre with
  | nil =>
    intro visited u post hlen _ hu
    have h1 : ¬ visited.length > 100 := by simp at hlen; omega
    simp only [List.nil_append, followChain, redirectPolicy, if_neg h1, hu, if_pos rfl]
    simp
  | cons v rest ih =>
    intro visited u post hlen hblk hu
    have h1 : ¬ visited.length > 100 := by simp at hlen; omega
    have h2 : v.host ≠ some "example.domain" := hblk v (List.mem_cons_self v rest)
    have hrec := ih (visited ++ [v]) u post
      (by simp at hlen ⊢; omega)
      (fun w hw => hblk w (List.mem_cons_of_mem v hw)) hu
    simp only [List.cons_append, followChain, redirectPolicy, if_neg h1, if_neg h2,
      List.append_eq]
    rw [hrec]
    simp

/-- Claim C1 (amended): the policy, per evaluation, answers with the
redirect-limit error exactly when the number of previously visited URLs
exceeds 100; a chain of length 101 that never targets the blocked host
fails with that error; and a chain of length at most 100 that never targets
the blocked host is fully followed. -/
theorem C1_redirect_limit :
    (∀ (previous : List Url) (next : Url),
      redirectPolicy previous next = RedirectAction.error "Too many redirects (>100)" ↔
        100 < previous.length) ∧
    (∀ (original : Url) (chain : List Url), chain.length = 101 →
      (∀ u ∈ chain, u.host ≠ some "example.domain") →
      ∃ v, runRedirects original chain =
        FetchResult.redirectError v "Too many redirects (>100)") ∧
    (∀ (original : Url) (chain : List Url), chain.length ≤ 100 →
      (∀ u ∈ chain, u.host ≠ some "example.domain") →
      runRedirects original chain = FetchResult.completed (original :: chain)) := by
  refine ⟨?_, ?_, ?_⟩
  · intro previous next
    constructor
    · intro h
      by_contra hlen
      simp only [redirectPolicy, if_neg hlen] at h
      by_cases hb : next.host = some "example.domain" <;> simp [hb] at h
    · intro hlen
      simp [redirectPolicy, hlen]
  · intro original chain hlen hblk
    exact followChain_error chain [original]
      (by intro h; subst h; simp at hlen) (by simp [hlen]) hblk
  · intro original chain hlen hblk
    have := followChain_completed chain [original] (by simp; omega) hblk
    simpa [runRedirects] using this

/-- Witness for claim C1 at a concrete 101-hop chain and a concrete 99-hop
chain, both on ordinary hosts. -/
theorem C1_redirect_limit_witness :
    ((List.replicate 101 plainUrl).length = 101 ∧
      ∃ v, runRedirects plainUrl (List.replicate 101 plainUrl) =
        FetchResult.redirectError v "Too many redirects (>100)") ∧
    ((List.replicate 99 plainUrl).length ≤ 100 ∧
      runRedirects plainUrl (List.replicate 99 plainUrl) =
        FetchResult.completed (plainUrl :: List.replicate 99 plainUrl)) := by
  refine ⟨⟨by simp, ?_⟩, ⟨by simp, ?_⟩⟩
  · exact C1_redirect_limit.2.1 plainUrl (List.replicate 101 plainUrl) (by simp)
      (fun u hu => by rcases List.eq_of_mem_replicate hu with rfl; decide)
  · exact C1_redirect_limit.2.2 plainUrl (List.replicate 99 plainUrl) (by simp)
      (fun u hu => by rcases List.eq_of_mem_replicate hu with rfl; decide)

/-- Claim C1 as stated is false: a simulated chain of length 101 whose first
hop targets the blocked host does not fail at all — the policy stops at hop
one and the fetch succeeds. -/
theorem C1_counterexample :
    (blockedUrl :: List.replicate 100 plainUrl).length = 101 ∧
    runRedirects plainUrl (blockedUrl :: List.replicate 100 plainUrl) =
      FetchResult.stopped [plainUrl] blockedUrl ∧
    (runRedirects plainUrl (blockedUrl :: List.replicate 100 plainUrl)).isError = false := by
  refine ⟨by simp, by decide, by decide⟩

/-- Claim C2 (amended): a redirect chain whose first blocked-host hop is
reached while at most 100 URLs have been visited stops at that hop and the
fetch returns the response received there as a success, not an error; the
hops before it are exactly the ones followed. -/
theorem C2_blocked_host_stop (original : Url) (pre : List Url) (u : Url) (post : List Url)
    (hpre : ∀ v ∈ pre, v.host ≠ some "example.domain")
    (hu : u.host = some "example.domain")
    (hlen : pre.length ≤ 99) :
    runRedirects original (pre ++ u :: post) = FetchResult.stopped (original :: pre) u ∧
    (runRedirects original (pre ++ u :: post)).isError = false := by
  have h := followChain_stop pre [original] u post (by simp; omega) hpre hu
  constructor
  · simpa [runRedirects] using h
  · simp only [runRedirects] at *
    rw [h]
    rfl

/-- Witness for claim C2: a chain of three ordinary hops, then the blocked
host, then two more hops that are never reached. -/
theorem C2_blocked_host_stop_witness :
    ((∀ v ∈ [plainUrl, plainUrl, plainUrl], v.host ≠ some "example.domain") ∧
      blockedUrl.host = some "example.domain" ∧
      ([plainUrl, plainUrl, plainUrl] : List Url).length ≤ 99) ∧
    runRedirects plainUrl ([plainUrl, plainUrl, plainUrl] ++ blockedUrl :: [plainUrl, plainUrl]) =
      FetchResult.stopped (plainUrl :: [plainUrl, plainUrl, plainUrl]) blockedUrl := by
  refine ⟨⟨by decide, by decide, by decide⟩, ?_⟩
  exact (C2_blocked_host_stop plainUrl [plainUrl, plainUrl, plainUrl] blockedUrl
    [plainUrl, plainUrl] (by decide) (by decide) (by decide)).1

/-- Claim C2 as stated is false: in a 101-hop chain whose only blocked-host
hop is the last one, the redirect-limit check fires first, so the fetch
fails with the redirect-limit error instead of stopping successfully. -/
theorem C2_counterexample :
    blockedUrl ∈ List.replicate 100 plainUrl ++ [blockedUrl] ∧
    (runRedirects plainUrl (List.replicate 100 plainUrl ++ [blockedUrl])).isError = true := by
  refine ⟨by simp, by decide⟩

/-- The selector constant of `parse_product` parses to tag `h1` with the
single class `product-title-text`. -/
theorem parse_title_selector :
    Selector.parse "h1.product-title-text" = some ⟨"h1", ["product-title-text"]⟩ := by
  decide

/-- Matching the parsed title selector coincides with the spec-side title
element test. -/
theorem matchesSel_title (n : Node) :
    Node.matchesSel ⟨"h1", ["product-title-text"]⟩ n = isTitleNode n := by
  cases n with
  | text s => rfl
  | elem tag classes children => simp [Node.matchesSel, isTitleNode]

mutual
/-- The head of the document-order selection of a subtree is the spec-side
first title element of that subtree. -/
theorem selectNode_head (n : Node) :
    (selectNode ⟨"h1", ["product-title-text"]⟩ n).head? = firstTitleNode n := by
  cases n with
  | text s => rfl
  | elem tag classes children =>
    by_cases h : isTitleNode (Node.elem tag classes children)
    · simp [selectNode, firstTitleNode, matchesSel_title, h]
    · simp [selectNode, firstTitleNode, matchesSel_title, h, selectList_head children]
/-- The head of the document-order selection of a sibling list is the
spec-side first title element under it. -/
theorem selectList_head (l : NodeList) :
    (selectList ⟨"h1", ["product-title-text"]⟩ l).head? = firstTitleList l := by
  cases l with
  | nil => rfl
  | cons n rest =>
    rw [selectList, List.head?_append, selectNode_head n, selectList_head rest]
    cases hn : firstTitleNode n <;> simp [firstTitleList, hn, Option.or]
end

mutual
/-- A subtree contains a title element exactly when its spec-side first
title element exists. -/
theorem anyNode_isSome (n : Node) : anyTitleNode n = (firstTitleNode n).isSome := by
  cases n with
  | text s => rfl
  | elem tag classes children =>
    by_cases h : isTitleNode (Node.elem tag classes children)
    · simp [anyTitleNode, firstTitleNode, h]
    · simp [anyTitleNode, firstTitleNode, h, anyList_isSome children]
/-- A sibling list contains a title element exactly when its spec-side
first title element exists. -/
theorem anyList_isSome (l : NodeList) : anyTitleList l = (firstTitleList l).isSome := by
  cases l with
  | nil => rfl
  | cons n rest =>
    rw [anyTitleList, anyNode_isSome n, anyList_isSome rest]
    cases hn : firstTitleNode n <;> simp [firstTitleList, hn]
end

/-- An all-whitespace character list trims to nothing. -/
theorem dropWhile_ws_nil (l : List Char) (h : ∀ c ∈ l, isRustWs c = true) :
    l.dropWhile isRustWs = [] := by
  induction l with
  | nil => rfl
  | cons c rest ih =>
    have hc := h c (List.mem_cons_self c rest)
    have ih2 := ih fun x hx => h x (List.mem_cons_of_mem c hx)
    simp [List.dropWhile_cons, hc, ih2]

/-- Trimming an all-whitespace string yields the empty string. -/
theorem rustTrim_ws (s : String) (h : ∀ c ∈ s.data, isRustWs c = true) :
    rustTrim s = "" := by
  have h1 := dropWhile_ws_nil s.data h
  simp [rustTrim, trimChars, h1]

/-- Claim C3: when the document contains a title element, `parse_product`
succeeds and the record's title is the trimmed inner content of the first
`h1.product-title-text` element in document order; later matches are
ignored. -/
theorem C3_first_title (pid : Nat) (doc : NodeList) (now : DateTime)
    (h : anyTitleList doc = true) :
    ∃ e, firstTitleList doc = some e ∧
      parse_product pid doc now =
        some ⟨pid, rustTrim (Node.innerHtml e), toRfc3339 now⟩ := by
  have hs : (firstTitleList doc).isSome = true := by rw [← anyList_isSome]; exact h
  obtain ⟨e, he⟩ := Option.isSome_iff_exists.mp hs
  refine ⟨e, he, ?_⟩
  simp [parse_product, parse_title_selector, selectList_head, he]

/-- Witness for claim C3 on the spec's fixture (with a second, ignored
title element appended): the extracted title is the trimmed text of the
first match. -/
theorem C3_first_title_witness :
    anyTitleList sampleDoc = true ∧
    (∃ e, firstTitleList sampleDoc = some e ∧
      parse_product sampleId sampleDoc sampleInstant =
        some ⟨sampleId, rustTrim (Node.innerHtml e), toRfc3339 sampleInstant⟩) ∧
    parse_product sampleId sampleDoc sampleInstant =
      some ⟨sampleId, "Wireless Mouse", "2026-10-12T08:30:05.123+00:00"⟩ :=
  ⟨by decide, C3_first_title sampleId sampleDoc sampleInstant (by decide), by decide⟩

/-- Claim C4: when the document contains no title element, `parse_product`
still succeeds and the record's title is exactly the sentinel
`"Unknown Title"`. -/
theorem C4_sentinel (pid : Nat) (doc : NodeList) (now : DateTime)
    (h : anyTitleList doc = false) :
    parse_product pid doc now = some ⟨pid, "Unknown Title", toRfc3339 now⟩ := by
  have hs : firstTitleList doc = none := by
    cases hq : firstTitleList doc with
    | none => rfl
    | some e => rw [anyList_isSome, hq] at h; simp at h
  simp [parse_product, parse_title_selector, selectList_head, hs]

/-- Witness for claim C4 on the spec's no-title fixture. -/
theorem C4_sentinel_witness :
    anyTitleList noTitleDoc = false ∧
    parse_product sampleId noTitleDoc sampleInstant =
      some ⟨sampleId, "Unknown Title", toRfc3339 sampleInstant⟩ :=
  ⟨by decide, C4_sentinel sampleId noTitleDoc sampleInstant (by decide)⟩

/-- Claim C5: the fixed selector constant parses, and `parse_product`
succeeds on every input — its failure branch (the `unwrap` on the selector
parse) is unreachable. -/
theorem C5_no_failure :
    (Selector.parse "h1.product-title-text").isSome = true ∧
    ∀ (pid : Nat) (doc : NodeList) (now : DateTime),
      (parse_product pid doc now).isSome = true := by
  refine ⟨by rw [parse_title_selector]; rfl, ?_⟩
  intro pid doc now
  simp [parse_product, parse_title_selector]

/-- Claim C9: a present-but-blank title element yields the empty title, not
the sentinel — the sentinel marks only a completely absent element. -/
theorem C9_blank_title (pid : Nat) (doc : NodeList) (now : DateTime) (e : Node)
    (hfirst : firstTitleList doc = some e)
    (hws : ∀ c ∈ (Node.innerHtml e).data, isRustWs c = true) :
    parse_product pid doc now = some ⟨pid, "", toRfc3339 now⟩ ∧
    ("" : String) ≠ "Unknown Title" := by
  constructor
  · have ht : rustTrim (Node.innerHtml e) = "" := rustTrim_ws _ hws
    simp [parse_product, parse_title_selector, selectList_head, hfirst, ht]
  · decide

/-- Witness for claim C9 on a document whose only title element contains
three spaces. -/
theorem C9_blank_title_witness :
    firstTitleList blankTitleDoc =
      some (Node.elem "h1" ["product-title-text"]
        (NodeList.cons (Node.text "   ") NodeList.nil)) ∧
    parse_product sampleId blankTitleDoc sampleInstant =
      some ⟨sampleId, "", toRfc3339 sampleInstant⟩ :=
  ⟨by rfl,
    (C9_blank_title sampleId blankTitleDoc sampleInstant
      (Node.elem "h1" ["product-title-text"] (NodeList.cons (Node.text "   ") NodeList.nil))
      (by rfl) (by decide)).1⟩

/-- Claim C10: the extracted title depends only on the document, never on
the product identifier. -/
theorem C10_title_independent (doc : NodeList) (now : DateTime) (id1 id2 : Nat) :
    (parse_product id1 doc now).map Product.title =
      (parse_product id2 doc now).map Product.title := by
  simp [parse_product, parse_title_selector]

/-- A hexadecimal digit character decodes back to its value. -/
theorem hexVal_hexDigitChar (d : Nat) (hd : d < 16) : hexVal? (hexDigitChar d) = some d := by
  interval_cases d <;> decide

/-- Four decodable hex digits make `hex4` succeed with the combined
value. -/
theorem hex4_some (h1 h2 h3 h4 : Char) (a b c d : Nat)
    (e1 : hexVal? h1 = some a) (e2 : hexVal? h2 = some b)
    (e3 : hexVal? h3 = some c) (e4 : hexVal? h4 = some d) :
    hex4 h1 h2 h3 h4 = some (((a * 16 + b) * 16 + c) * 16 + d) := by
  unfold hex4
  rw [e1, e2, e3, e4]

/-- Unfolding of `parseStrBody` on a unicode escape. -/
theorem parseStrBody_u (h1 h2 h3 h4 : Char) (l : List Char) :
    parseStrBody ('\\' :: 'u' :: h1 :: h2 :: h3 :: h4 :: l) =
      match hex4 h1 h2 h3 h4 with
      | some n => (parseStrBody l).map (consFst (Char.ofNat n))
      | none => none := rfl

/-- Unfolding of `parseStrBody` on an unescaped ordinary character. -/
theorem parseStrBody_default (c : Char) (l : List Char)
    (h1 : c ≠ '"') (h2 : c ≠ '\\') :
    parseStrBody (c :: l) = (parseStrBody l).map (consFst c) := by
  simp [parseStrBody, h1, h2]

/-- Round trip of the JSON string escaping: parsing the escaped body up to
a closing quote recovers the original characters and the remainder. -/
theorem parseStrBody_escape (l : List Char) : ∀ R : List Char,
    parseStrBody (escapeJsonChars l ++ '"' :: R) = some (l, R) := by
  induction l with
  | nil => intro R; rfl
  | cons c t ih =>
    intro R
    have hesc : escapeJsonChars (c :: t) = escChar c ++ escapeJsonChars t := by
      simp [escapeJsonChars]
    rw [hesc, List.append_assoc]
    by_cases hq : c = '"'
    · subst hq
      rw [show escChar '"' = ['\\', '"'] from rfl]
      show (parseStrBody (escapeJsonChars t ++ '"' :: R)).map (consFst '"') = _
      rw [ih R]
      rfl
    · by_cases hb : c = '\\'
      · subst hb
        rw [show escChar '\\' = ['\\', '\\'] from rfl]
        show (parseStrBody (escapeJsonChars t ++ '"' :: R)).map (consFst '\\') = _
        rw [ih R]
        rfl
      · by_cases h8 : c.toNat = 8
        · rw [show escChar c = ['\\', 'b'] by simp [escChar, hq, hb, h8]]
          show (parseStrBody (escapeJsonChars t ++ '"' :: R)).map (consFst (Char.ofNat 8)) = _
          rw [ih R, ← h8, Char.ofNat_toNat]
          rfl
        · by_cases h9 : c.toNat = 9
          · rw [show escChar c = ['\\', 't'] by simp [escChar, hq, hb, h8, h9]]
            show (parseStrBody (escapeJsonChars t ++ '"' :: R)).map (consFst (Char.ofNat 9)) = _
            rw [ih R, ← h9, Char.ofNat_toNat]
            rfl
          · by_cases h10 : c.toNat = 10
            · rw [show escChar c = ['\\', 'n'] by simp [escChar, hq, hb, h8, h9, h10]]
              show (parseStrBody (escapeJsonChars t ++ '"' :: R)).map
                (consFst (Char.ofNat 10)) = _
              rw [ih R, ← h10, Char.ofNat_toNat]
              rfl
            · by_cases h12 : c.toNat = 12
              · rw [show escChar c = ['\\', 'f'] by simp [escChar, hq, hb, h8, h9, h10, h12]]
                show (parseStrBody (escapeJsonChars t ++ '"' :: R)).map
                  (consFst (Char.ofNat 12)) = _
                rw [ih R, ← h12, Char.ofNat_toNat]
                rfl
              · by_cases h13 : c.toNat = 13
                · rw [show escChar c = ['\\', 'r'] by
                    simp [escChar, hq, hb, h8, h9, h10, h12, h13]]
                  show (parseStrBody (escapeJsonChars t ++ '"' :: R)).map
                    (consFst (Char.ofNat 13)) = _
                  rw [ih R, ← h13, Char.ofNat_toNat]
                  rfl
                · by_cases hlt : c.toNat < 32
                  · rw [show escChar c =
                        ['\\', 'u', '0', '0', hexDigitChar (c.toNat / 16),
                          hexDigitChar (c.toNat % 16)] by
                      simp [escChar, hq, hb, h8, h9, h10, h12, h13, hlt]]
                    show parseStrBody ('\\' :: 'u' :: '0' :: '0' ::
                      hexDigitChar (c.toNat / 16) :: hexDigitChar (c.toNat % 16) ::
                      (escapeJsonChars t ++ '"' :: R)) = _
                    rw [parseStrBody_u,
                      hex4_some '0' '0' (hexDigitChar (c.toNat / 16))
                        (hexDigitChar (c.toNat % 16)) 0 0 (c.toNat / 16) (c.toNat % 16)
                        rfl rfl (hexVal_hexDigitChar _ (by omega))
                        (hexVal_hexDigitChar _ (by omega))]
                    show (parseStrBody (escapeJsonChars t ++ '"' :: R)).map
                      (consFst (Char.ofNat
                        (((0 * 16 + 0) * 16 + c.toNat / 16) * 16 + c.toNat % 16))) = _
                    rw [show ((0 * 16 + 0) * 16 + c.toNat / 16) * 16 + c.toNat % 16
                        = c.toNat by omega]
                    rw [ih R, Char.ofNat_toNat]
                    rfl
                  · rw [show escChar c = [c] by
                      simp [escChar, hq, hb, h8, h9, h10, h12, h13, hlt]]
                    rw [List.cons_append, List.nil_append,
                      parseStrBody_default c _ hq hb, ih R]
                    rfl

/-- The digit character of a value below ten reads back as that value. -/
theorem decChar_toNat (d : Nat) (h : d < 10) : (decChar d).toNat = 48 + d := by
  interval_cases d <;> decide

/-- Digit characters are decimal digits. -/
theorem decChar_isDigit (d : Nat) (h : d < 10) : (decChar d).isDigit = true := by
  interval_cases d <;> decide

/-- Digit characters are not JSON whitespace. -/
theorem decChar_notWs (d : Nat) (h : d < 10) : isJsonWs (decChar d) = false := by
  interval_cases d <;> decide

/-- Every character of a decimal rendering is a decimal digit. -/
theorem natDecChars_digits (n : Nat) : ∀ c ∈ natDecChars n, c.isDigit = true := by
  intro c hc
  unfold natDecChars at hc
  by_cases h : n = 0
  · simp [h] at hc
    subst hc
    decide
  · simp [h] at hc
    obtain ⟨d, hd, rfl⟩ := hc
    exact decChar_isDigit d (Nat.digits_lt_base (by norm_num) hd)

/-- No character of a decimal rendering is JSON whitespace. -/
theorem natDecChars_notWs (n : Nat) : ∀ c ∈ natDecChars n, isJsonWs c = false := by
  intro c hc
  unfold natDecChars at hc
  by_cases h : n = 0
  · simp [h] at hc
    subst hc
    decide
  · simp [h] at hc
    obtain ⟨d, hd, rfl⟩ := hc
    exact decChar_notWs d (Nat.digits_lt_base (by norm_num) hd)

/-- A decimal rendering is never empty. -/
theorem natDecChars_ne_nil (n : Nat) : natDecChars n ≠ [] := by
  unfold natDecChars
  by_cases h : n = 0
  · simp [h]
  · simp [h, Nat.digits_ne_nil_iff_ne_zero]

/-- Reading the reversed digit list of a numeral recovers its value. -/
theorem digitsVal_revmap (L : List Nat) (hL : ∀ d ∈ L, d < 10) :
    digitsVal (L.reverse.map decChar) = Nat.ofDigits 10 L := by
  induction L with
  | nil => simp [digitsVal, Nat.ofDigits_nil]
  | cons d t ih =>
    have hd : d < 10 := hL d (List.mem_cons_self d t)
    have ht := ih fun x hx => hL x (List.mem_cons_of_mem d hx)
    simp only [List.reverse_cons, List.map_append, List.map_cons, List.map_nil]
    simp only [digitsVal, List.foldl_append, List.foldl_cons, List.foldl_nil] at ht ⊢
    rw [ht, decChar_toNat d hd, Nat.ofDigits_cons]
    omega

/-- Round trip of the decimal rendering of a natural number. -/
theorem digitsVal_natDecChars (n : Nat) : digitsVal (natDecChars n) = n := by
  unfold natDecChars
  by_cases h : n = 0
  · subst h; decide
  · rw [if_neg h, digitsVal_revmap _ (fun d hd => Nat.digits_lt_base (by norm_num) hd),
      Nat.ofDigits_digits]

/-- `takeWhile` and `dropWhile` split a run of satisfying characters at the
first failing one. -/
theorem takeWhile_all_append (p : Char → Bool) (ds : List Char) (c0 : Char) (R : List Char)
    (hd : ∀ c ∈ ds, p c = true) (hc : p c0 = false) :
    (ds ++ c0 :: R).takeWhile p = ds ∧ (ds ++ c0 :: R).dropWhile p = c0 :: R := by
  induction ds with
  | nil => simp [List.takeWhile_cons, List.dropWhile_cons, hc]
  | cons c t ih =>
    have h1 := hd c (List.mem_cons_self c t)
    have ih2 := ih fun x hx => hd x (List.mem_cons_of_mem c hx)
    simp [List.takeWhile_cons, List.dropWhile_cons, h1, ih2.1, ih2.2]

/-- A nonempty digit run followed by a non-digit parses as its value. -/
theorem parseNatChars_append (ds : List Char) (c0 : Char) (R : List Char)
    (hne : ds ≠ []) (hd : ∀ c ∈ ds, c.isDigit = true) (hc : c0.isDigit = false) :
    parseNatChars (ds ++ c0 :: R) = some (digitsVal ds, c0 :: R) := by
  obtain ⟨ht, hdr⟩ := takeWhile_all_append Char.isDigit ds c0 R hd hc
  unfold parseNatChars
  rw [ht, hdr]
  simp [List.isEmpty_iff, hne]

/-- Whitespace skipping stops at a non-whitespace character. -/
theorem skipWs_cons_false (c : Char) (l : List Char) (hc : isJsonWs c = false) :
    skipWs (c :: l) = c :: l := by
  simp [skipWs, List.dropWhile_cons, hc]

/-- Whitespace skipping consumes a whitespace character. -/
theorem skipWs_cons_true (c : Char) (l : List Char) (hc : isJsonWs c = true) :
    skipWs (c :: l) = skipWs l := by
  simp [skipWs, List.dropWhile_cons, hc]

/-- Deserializing the exact shape the serializer emits recovers the
identifier value and both decoded strings. -/
theorem parseProductJson_shape (ds t1 t2 : List Char)
    (hne : ds ≠ []) (hd : ∀ c ∈ ds, c.isDigit = true)
    (hw : ∀ c ∈ ds, isJsonWs c = false) :
    parseProductJson ⟨productJsonChars ds (escapeJsonChars t1) (escapeJsonChars t2)⟩ =
      some ⟨digitsVal ds, ⟨t1⟩, ⟨t2⟩⟩ := by
  have hnum : ∀ R, parseNatChars (ds ++ ',' :: R) = some (digitsVal ds, ',' :: R) :=
    fun R => parseNatChars_append ds ',' R hne hd rfl
  have hskipd : ∀ R, skipWs (' ' :: (ds ++ R)) = ds ++ R := by
    intro R
    rw [skipWs_cons_true ' ' _ rfl]
    cases ds with
    | nil => exact absurd rfl hne
    | cons c t =>
      exact skipWs_cons_false c _ (hw c (List.mem_cons_self c t))
  have hstr1 : ∀ R, parseJsonString ('"' :: (escapeJsonChars t1 ++ '"' :: R)) =
      some (⟨t1⟩, R) := by
    intro R
    simp [parseJsonString, parseStrBody_escape t1 R]
  have hstr2 : ∀ R, parseJsonString ('"' :: (escapeJsonChars t2 ++ '"' :: R)) =
      some (⟨t2⟩, R) := by
    intro R
    simp [parseJsonString, parseStrBody_escape t2 R]
  have w_open : ∀ X : List Char, skipWs ('\x7b' :: X) = '\x7b' :: X := fun X => rfl
  have s_open : ∀ X : List Char, stripLit "\x7b".data ('\x7b' :: X) = some X := fun X => rfl
  have w_nl : ∀ X : List Char, skipWs ('\n' :: ' ' :: ' ' :: '"' :: X) = '"' :: X :=
    fun X => rfl
  have s_pid : ∀ X : List Char, stripLit "\"product_id\"".data
      ('"' :: 'p' :: 'r' :: 'o' :: 'd' :: 'u' :: 'c' :: 't' :: '_' :: 'i' :: 'd' :: '"' :: X)
      = some X := fun X => rfl
  have w_colon : ∀ X : List Char, skipWs (':' :: X) = ':' :: X := fun X => rfl
  have s_colon : ∀ X : List Char, stripLit ":".data (':' :: X) = some X := fun X => rfl
  have w_comma : ∀ X : List Char, skipWs (',' :: X) = ',' :: X := fun X => rfl
  have s_comma : ∀ X : List Char, stripLit ",".data (',' :: X) = some X := fun X => rfl
  have s_title : ∀ X : List Char, stripLit "\"title\"".data
      ('"' :: 't' :: 'i' :: 't' :: 'l' :: 'e' :: '"' :: X) = some X := fun X => rfl
  have s_ts : ∀ X : List Char, stripLit "\"timestamp\"".data
      ('"' :: 't' :: 'i' :: 'm' :: 'e' :: 's' :: 't' :: 'a' :: 'm' :: 'p' :: '"' :: X)
      = some X := fun X => rfl
  have w_sq : ∀ X : List Char, skipWs (' ' :: '"' :: X) = '"' :: X := fun X => rfl
  have w_end : skipWs ('\n' :: '\x7d' :: []) = ['\x7d'] := rfl
  have s_close : stripLit "\x7d".data ('\x7d' :: ([] : List Char)) = some [] := rfl
  have w_nil : skipWs [] = [] := rfl
  simp only [productJsonChars, parseProductJson, Option.bind_eq_bind, Option.some_bind,
    w_open, s_open, w_nl, s_pid, w_colon, s_colon, hskipd, hnum, w_comma, s_comma,
    s_title, w_sq, hstr1, hstr2, s_ts, w_end, s_close, w_nil, List.isEmpty_nil, if_true]

/-- The serialized record, character by character. -/
theorem to_string_pretty_data (pid : Nat) (title ts : String) :
    (to_string_pretty ⟨pid, title, ts⟩).data =
      productJsonChars (natDecChars pid) (escapeJsonChars title.data)
        (escapeJsonChars ts.data) := by
  have hk1 : escapeJson "product_id" = "product_id" := by decide
  have hk2 : escapeJson "title" = "title" := by decide
  have hk3 : escapeJson "timestamp" = "timestamp" := by decide
  have hmk : ∀ l : List Char, (⟨l⟩ : String).data = l := fun l => rfl
  simp only [to_string_pretty, objPretty, objEntries, Product.jsonFields, JVal.pretty,
    hk1, hk2, hk3, natDec, escapeJson, String.data_append, List.append_assoc, hmk,
    productJsonChars]
  rfl

/-- Deserializing the serialized form of any record recovers the record. -/
theorem parse_roundtrip (p : Product) :
    parseProductJson (to_string_pretty p) = some p := by
  obtain ⟨pid, title, ts⟩ := p
  have h2 : to_string_pretty ⟨pid, title, ts⟩ =
      ⟨productJsonChars (natDecChars pid) (escapeJsonChars title.data)
        (escapeJsonChars ts.data)⟩ :=
    String.ext (to_string_pretty_data pid title ts)
  rw [h2, parseProductJson_shape (natDecChars pid) title.data ts.data
    (natDecChars_ne_nil pid) (natDecChars_digits pid) (natDecChars_notWs pid),
    digitsVal_natDecChars]

/-- Claim C6: persisting a record with `save_to_file` and reading the
destination file back yields content that deserializes to a record equal
to the original in all three fields, the identifier value preserved
exactly. -/
theorem C6_roundtrip (p : Product) (filename : String) (fs : FileSys) :
    ∃ contents, save_to_file p filename fs filename = some contents ∧
      parseProductJson contents = some p := by
  refine ⟨to_string_pretty p, ?_, parse_roundtrip p⟩
  simp [save_to_file]

/-- Claim C7: the serialization is the indented object text with the keys
in the fixed order `product_id`, `title`, `timestamp`, and equal records
serialize to identical bytes. -/
theorem C7_format (p : Product) :
    to_string_pretty p =
      "\x7b\n  \"product_id\": " ++ natDec p.product_id ++ ",\n  \"title\": \"" ++
        escapeJson p.title ++ "\",\n  \"timestamp\": \"" ++ escapeJson p.timestamp ++
        "\"\n\x7d" ∧
    ∀ q : Product, q = p → to_string_pretty q = to_string_pretty p := by
  constructor
  · obtain ⟨pid, title, ts⟩ := p
    apply String.ext
    rw [to_string_pretty_data]
    simp only [String.data_append, natDec, escapeJson,
      show ∀ l : List Char, (⟨l⟩ : String).data = l from fun l => rfl,
      List.append_assoc, productJsonChars]
    rfl
  · intro q hq
    rw [hq]

/-- A digit character decodes back to its value. -/
theorem digitVal_decChar (d : Nat) (h : d < 10) : digitVal? (decChar d) = some d := by
  rw [digitVal?, decChar_toNat d h]
  have : 48 ≤ 48 + d ∧ 48 + d ≤ 57 := by omega
  rw [if_pos this]
  congr 1
  omega

/-- Peeling the leading digit off a zero-padded rendering. -/
theorem padNum_succ (k n : Nat) :
    padNum (k + 1) n = decChar (n / 10 ^ k % 10) :: padNum k n := by
  simp [padNum, List.range_succ]

/-- Every character of a zero-padded rendering is a decimal digit. -/
theorem padNum_digits (k n : Nat) : ∀ c ∈ padNum k n, c.isDigit = true := by
  intro c hc
  simp [padNum] at hc
  obtain ⟨i, _, rfl⟩ := hc
  exact decChar_isDigit _ (Nat.mod_lt _ (by norm_num))

/-- A zero-padded rendering has exactly the requested width. -/
theorem padNum_length (k n : Nat) : (padNum k n).length = k := by
  simp [padNum]

/-- Reading a zero-padded rendering accumulates its low digits. -/
theorem parseFixedAux_padNum (k n : Nat) : ∀ acc R,
    parseFixedAux k acc (padNum k n ++ R) = some (acc * 10 ^ k + n % 10 ^ k, R) := by
  induction k with
  | zero => intro acc R; simp [padNum, parseFixedAux, Nat.mod_one]
  | succ k ih =>
    intro acc R
    rw [padNum_succ, List.cons_append]
    have hd := digitVal_decChar (n / 10 ^ k % 10) (Nat.mod_lt _ (by norm_num))
    simp only [parseFixedAux, hd]
    rw [ih]
    congr 2
    rw [Nat.mod_pow_succ, pow_succ]
    ring

/-- A fixed-width read of a zero-padded in-range value recovers it. -/
theorem parseFixedNat_padNum (k n : Nat) (R : List Char) (h : n < 10 ^ k) :
    parseFixedNat k (padNum k n ++ R) = some (n, R) := by
  unfold parseFixedNat
  rw [parseFixedAux_padNum]
  simp [Nat.mod_eq_of_lt h]

/-- Folding the digit values of a zero-padded rendering. -/
theorem foldl_padNum (k n : Nat) : ∀ acc,
    (padNum k n).foldl (fun a c => a * 10 + (c.toNat - 48)) acc =
      acc * 10 ^ k + n % 10 ^ k := by
  induction k with
  | zero => intro acc; simp [padNum, Nat.mod_one]
  | succ k ih =>
    intro acc
    rw [padNum_succ, List.foldl_cons, decChar_toNat _ (Nat.mod_lt _ (by norm_num))]
    have : 48 + n / 10 ^ k % 10 - 48 = n / 10 ^ k % 10 := by omega
    rw [this, ih]
    rw [Nat.mod_pow_succ, pow_succ]
    ring

/-- The digit value of a zero-padded rendering is the low digits. -/
theorem digitsVal_padNum (k n : Nat) : digitsVal (padNum k n) = n % 10 ^ k := by
  rw [digitsVal, foldl_padNum]
  ring

/-- Parsing a dotted zero-padded fraction of width one to nine. -/
theorem parseFrac_pad (k v : Nat) (X : List Char) (h1 : 1 ≤ k) (h9 : k ≤ 9) :
    parseFrac ('.' :: (padNum k v ++ '+' :: X)) =
      some (v % 10 ^ k * 10 ^ (9 - k), '+' :: X) := by
  obtain ⟨ht, hdr⟩ := takeWhile_all_append Char.isDigit (padNum k v) '+' X
    (padNum_digits k v) rfl
  simp only [parseFrac, ht, hdr, padNum_length]
  have hne : (padNum k v).isEmpty = false := by
    cases hk : padNum k v with
    | nil => have := padNum_length k v; rw [hk] at this; simp at this; omega
    | cons a b => rfl
  simp [hne, Nat.not_lt.mpr h9, digitsVal_padNum]

/-- Round trip of the fractional-second rendering: parsing the emitted
fraction recovers the nanosecond count. -/
theorem parseFrac_fracChars (ns : Nat) (hns : ns < 1000000000) (X : List Char) :
    parseFrac (fracChars ns ++ '+' :: X) = some (ns, '+' :: X) := by
  by_cases h0 : ns = 0
  · subst h0
    rfl
  · by_cases h6 : ns % 1000000 = 0
    · rw [show fracChars ns = '.' :: padNum 3 (ns / 1000000) by simp [fracChars, h0, h6],
        List.cons_append, parseFrac_pad 3 _ X (by omega) (by omega)]
      congr 2
      have hlt : ns / 1000000 < 10 ^ 3 := by omega
      rw [Nat.mod_eq_of_lt hlt]
      have : 10 ^ (9 - 3) = 1000000 := by norm_num
      rw [this]
      exact Nat.div_mul_cancel (Nat.dvd_of_mod_eq_zero h6)
    · by_cases h3 : ns % 1000 = 0
      · rw [show fracChars ns = '.' :: padNum 6 (ns / 1000) by simp [fracChars, h0, h6, h3],
          List.cons_append, parseFrac_pad 6 _ X (by omega) (by omega)]
        congr 2
        have hlt : ns / 1000 < 10 ^ 6 := by omega
        rw [Nat.mod_eq_of_lt hlt]
        have : 10 ^ (9 - 6) = 1000 := by norm_num
        rw [this]
        exact Nat.div_mul_cancel (Nat.dvd_of_mod_eq_zero h3)
      · rw [show fracChars ns = '.' :: padNum 9 ns by simp [fracChars, h0, h6, h3],
          List.cons_append, parseFrac_pad 9 _ X (by omega) (by omega)]
        congr 2
        have hlt : ns < 10 ^ 9 := by omega
        rw [Nat.mod_eq_of_lt hlt]
        simp

/-- Round trip of the RFC 3339 rendering: parsing the string `to_rfc3339`
emits recovers exactly the original valid instant. -/
theorem rfc3339_roundtrip (dt : DateTime) (hv : dt.isValid = true) :
    parseRfc3339 (toRfc3339 dt) = some dt := by
  have hb : dt.year ≤ 9999 ∧ dt.month ≤ 12 ∧ dt.day ≤ 31 ∧ dt.hour ≤ 23 ∧
      dt.minute ≤ 59 ∧ dt.second ≤ 60 ∧ dt.nanos < 1000000000 := by
    unfold DateTime.isValid at hv
    simp only [Bool.and_eq_true, decide_eq_true_eq] at hv
    omega
  have hy : ∀ X, parseFixedNat 4 (padNum 4 dt.year ++ X) = some (dt.year, X) :=
    fun X => parseFixedNat_padNum 4 _ X (by norm_num; omega)
  have hmo : ∀ X, parseFixedNat 2 (padNum 2 dt.month ++ X) = some (dt.month, X) :=
    fun X => parseFixedNat_padNum 2 _ X (by norm_num; omega)
  have hda : ∀ X, parseFixedNat 2 (padNum 2 dt.day ++ X) = some (dt.day, X) :=
    fun X => parseFixedNat_padNum 2 _ X (by norm_num; omega)
  have hho : ∀ X, parseFixedNat 2 (padNum 2 dt.hour ++ X) = some (dt.hour, X) :=
    fun X => parseFixedNat_padNum 2 _ X (by norm_num; omega)
  have hmi : ∀ X, parseFixedNat 2 (padNum 2 dt.minute ++ X) = some (dt.minute, X) :=
    fun X => parseFixedNat_padNum 2 _ X (by norm_num; omega)
  have hse : ∀ X, parseFixedNat 2 (padNum 2 dt.second ++ X) = some (dt.second, X) :=
    fun X => parseFixedNat_padNum 2 _ X (by norm_num; omega)
  have e_dash : ∀ X : List Char, expectChar '-' ('-' :: X) = some X := fun X => rfl
  have e_T : ∀ X : List Char, expectChar 'T' ('T' :: X) = some X := fun X => rfl
  have e_colon : ∀ X : List Char, expectChar ':' (':' :: X) = some X := fun X => rfl
  have hfr : ∀ X, parseFrac (fracChars dt.nanos ++ '+' :: X) = some (dt.nanos, '+' :: X) :=
    fun X => parseFrac_fracChars dt.nanos (by omega) X
  have hplus : ("+00:00".data : List Char) =
      '+' :: '0' :: '0' :: ':' :: '0' :: '0' :: [] := rfl
  have hsl : ∀ X : List Char,
      stripLit ('+' :: '0' :: '0' :: ':' :: '0' :: '0' :: [])
        ('+' :: '0' :: '0' :: ':' :: '0' :: '0' :: X) = some X := fun X => rfl
  have hvb : DateTime.isValid ⟨dt.year, dt.month, dt.day, dt.hour, dt.minute,
      dt.second, dt.nanos⟩ = true := hv
  simp only [parseRfc3339, toRfc3339, hplus, List.append_assoc, List.cons_append,
    Option.bind_eq_bind, Option.some_bind,
    hy, e_dash, hmo, hda, e_T, hho, e_colon, hmi, hse, hfr, hsl,
    List.isEmpty_nil, hvb, Bool.true_and, Bool.and_self, if_true]

/-- Claim C8: the timestamp of any record `parse_product` produces is the
current instant rendered per RFC 3339: it parses back successfully, and
when the clock reads between process start and process end, the denoted
time lies between them. -/
theorem C8_timestamp (pid : Nat) (doc : NodeList) (startI endI now : DateTime)
    (hv : now.isValid = true)
    (h1 : startI.key ≤ now.key) (h2 : now.key ≤ endI.key) :
    ∀ p, parse_product pid doc now = some p →
      ∃ t, parseRfc3339 p.timestamp = some t ∧ t.isValid = true ∧
        startI.key ≤ t.key ∧ t.key ≤ endI.key := by
  intro p hp
  simp only [parse_product, parse_title_selector, Option.some.injEq] at hp
  subst hp
  exact ⟨now, rfc3339_roundtrip now hv, hv, h1, h2⟩

/-- Witness for claim C8 at a concrete instant between two concrete
bounds. -/
theorem C8_timestamp_witness :
    (sampleInstant.isValid = true ∧ startInstant.key ≤ sampleInstant.key ∧
      sampleInstant.key ≤ endInstant.key ∧
      parse_product sampleId noTitleDoc sampleInstant =
        some ⟨sampleId, "Unknown Title", toRfc3339 sampleInstant⟩) ∧
    ∃ t, parseRfc3339 (Product.timestamp
        ⟨sampleId, "Unknown Title", toRfc3339 sampleInstant⟩) = some t ∧
      t.isValid = true ∧ startInstant.key ≤ t.key ∧ t.key ≤ endInstant.key :=
  ⟨⟨by decide, by decide, by decide, by decide⟩,
    C8_timestamp sampleId noTitleDoc startInstant endInstant sampleInstant
      (by decide) (by decide) (by decide)
      ⟨sampleId, "Unknown Title", toRfc3339 sampleInstant⟩ (by decide)⟩
